import Mathlib

/-!
Verification of the provider-aware configuration resolution engine of the
repository: the model resolution engine (`resolveModel`, `generateModelConfig`
in `src/utils.ts`), the deep merge unit and configuration writer (`deepMerge`,
`writeOmoConfig` in `src/config-manager.ts`) and the plugin registry editor
(`addPluginToOpenCodeConfig` in `src/config-manager.ts`).

All definitions are shallow embeddings of the TypeScript source: maps are
association lists in insertion order, JS values are the inductive `JVal`,
and the file-system steps are made explicit as pure functions of the file
content they read.
-/

namespace Hotspot

/-- The three native providers (`type NativeProvider` in src/utils.ts). -/
inductive NativeProvider where
  | claude
  | openai
  | gemini
deriving DecidableEq, Repr

/-- The capability tags (`type ModelCapability` in src/utils.ts). -/
inductive ModelCapability where
  | unspecifiedHigh
  | unspecifiedLow
  | quick
  | ultrabrain
  | visualEngineering
  | artistry
  | writing
  | glm
deriving DecidableEq, Repr

/-- `interface ProviderAvailability` from src/utils.ts, with the nested
`native` record flattened into the three flags it holds. -/
structure ProviderAvailability where
  claude : Bool
  openai : Bool
  gemini : Bool
  opencodeZen : Bool
  copilot : Bool
  zai : Bool
  isMaxPlan : Bool
deriving DecidableEq, Repr

/-- `avail.native[entry.provider]` lookup. -/
def ProviderAvailability.nativeFlag (a : ProviderAvailability) : NativeProvider → Bool
  | .claude => a.claude
  | .openai => a.openai
  | .gemini => a.gemini

/-- The `InstallConfig` flags consumed by `toProviderAvailability` and
`generateModelConfig` (fields read from `config` in src/utils.ts and set in
src/install.ts). -/
structure InstallConfig where
  hasClaude : Bool
  isMax20 : Bool
  hasOpenAI : Bool
  hasGemini : Bool
  hasCopilot : Bool
  hasOpencodeZen : Bool
  hasZaiCodingPlan : Bool
deriving DecidableEq, Repr

/-- An entry of a native fallback chain (`interface NativeFallbackEntry`). -/
structure NativeFallbackEntry where
  provider : NativeProvider
  model : String
deriving DecidableEq, Repr

/-- `NATIVE_FALLBACK_CHAINS` from src/utils.ts, verbatim. -/
def NATIVE_FALLBACK_CHAINS : ModelCapability → List NativeFallbackEntry
  | .unspecifiedHigh =>
      [⟨.claude, "anthropic/claude-opus-4-5"⟩,
       ⟨.openai, "openai/gpt-5.2"⟩,
       ⟨.gemini, "google/gemini-3-pro-preview"⟩]
  | .unspecifiedLow =>
      [⟨.claude, "anthropic/claude-sonnet-4-5"⟩,
       ⟨.openai, "openai/gpt-5.2"⟩,
       ⟨.gemini, "google/gemini-3-flash-preview"⟩]
  | .quick =>
      [⟨.claude, "anthropic/claude-haiku-4-5"⟩,
       ⟨.openai, "openai/gpt-5.1-codex-mini"⟩,
       ⟨.gemini, "google/gemini-3-flash-preview"⟩]
  | .ultrabrain =>
      [⟨.openai, "openai/gpt-5.2-codex"⟩,
       ⟨.claude, "anthropic/claude-opus-4-5"⟩,
       ⟨.gemini, "google/gemini-3-pro-preview"⟩]
  | .visualEngineering =>
      [⟨.gemini, "google/gemini-3-pro-preview"⟩,
       ⟨.openai, "openai/gpt-5.2"⟩,
       ⟨.claude, "anthropic/claude-sonnet-4-5"⟩]
  | .artistry =>
      [⟨.gemini, "google/gemini-3-pro-preview"⟩,
       ⟨.openai, "openai/gpt-5.2"⟩,
       ⟨.claude, "anthropic/claude-opus-4-5"⟩]
  | .writing =>
      [⟨.gemini, "google/gemini-3-flash-preview"⟩,
       ⟨.openai, "openai/gpt-5.2"⟩,
       ⟨.claude, "anthropic/claude-sonnet-4-5"⟩]
  | .glm => []

/-- `OPENCODE_ZEN_MODELS` from src/utils.ts. -/
def OPENCODE_ZEN_MODELS : ModelCapability → String
  | .unspecifiedHigh => "opencode/claude-opus-4-5"
  | .unspecifiedLow => "opencode/claude-sonnet-4-5"
  | .quick => "opencode/claude-haiku-4-5"
  | .ultrabrain => "opencode/gpt-5.2-codex"
  | .visualEngineering => "opencode/gemini-3-pro"
  | .artistry => "opencode/gemini-3-pro"
  | .writing => "opencode/gemini-3-flash"
  | .glm => "opencode/glm-4.7-free"

/-- `GITHUB_COPILOT_MODELS` from src/utils.ts. -/
def GITHUB_COPILOT_MODELS : ModelCapability → String
  | .unspecifiedHigh => "github-copilot/claude-opus-4.5"
  | .unspecifiedLow => "github-copilot/claude-sonnet-4.5"
  | .quick => "github-copilot/claude-haiku-4.5"
  | .ultrabrain => "github-copilot/gpt-5.2-codex"
  | .visualEngineering => "github-copilot/gemini-3-pro-preview"
  | .artistry => "github-copilot/gemini-3-pro-preview"
  | .writing => "github-copilot/gemini-3-flash-preview"
  | .glm => "github-copilot/gpt-5.2"

/-- `ZAI_MODEL` from src/utils.ts. -/
def ZAI_MODEL : String := "zai-coding-plan/glm-4.7"

/-- `ULTIMATE_FALLBACK` from src/utils.ts. -/
def ULTIMATE_FALLBACK : String := "opencode/glm-4.7-free"

/-- `SCHEMA_URL` from src/utils.ts. -/
def SCHEMA_URL : String :=
  "https://raw.githubusercontent.com/code-yeongyu/oh-my-opencode/master/assets/oh-my-opencode.schema.json"

/-- An agent or category requirement (`interface AgentRequirement` /
`CategoryRequirement`). -/
structure AgentRequirement where
  capability : ModelCapability
  variant : Option String := none
deriving DecidableEq, Repr

/-- `AGENT_REQUIREMENTS` from src/utils.ts, as an association list in
declaration order (the iteration order of `Object.entries`). -/
def AGENT_REQUIREMENTS : List (String × AgentRequirement) :=
  [("Sisyphus", ⟨.unspecifiedHigh, none⟩),
   ("oracle", ⟨.ultrabrain, some "high"⟩),
   ("librarian", ⟨.glm, none⟩),
   ("explore", ⟨.quick, none⟩),
   ("multimodal-looker", ⟨.visualEngineering, none⟩),
   ("Prometheus (Planner)", ⟨.unspecifiedHigh, none⟩),
   ("Metis (Plan Consultant)", ⟨.unspecifiedHigh, none⟩),
   ("Momus (Plan Reviewer)", ⟨.ultrabrain, some "medium"⟩),
   ("Atlas", ⟨.unspecifiedHigh, none⟩)]

/-- `CATEGORY_REQUIREMENTS` from src/utils.ts, in declaration order. -/
def CATEGORY_REQUIREMENTS : List (String × AgentRequirement) :=
  [("visual-engineering", ⟨.visualEngineering, none⟩),
   ("ultrabrain", ⟨.ultrabrain, none⟩),
   ("artistry", ⟨.artistry, some "max"⟩),
   ("quick", ⟨.quick, none⟩),
   ("unspecified-low", ⟨.unspecifiedLow, none⟩),
   ("unspecified-high", ⟨.unspecifiedHigh, none⟩),
   ("writing", ⟨.writing, none⟩)]

/-- `toProviderAvailability` from src/utils.ts. -/
def toProviderAvailability (config : InstallConfig) : ProviderAvailability :=
  { claude := config.hasClaude
    openai := config.hasOpenAI
    gemini := config.hasGemini
    opencodeZen := config.hasOpencodeZen
    copilot := config.hasCopilot
    zai := config.hasZaiCodingPlan
    isMaxPlan := config.isMax20 }

/-- `resolveModel` from src/utils.ts: walk the capability's native chain
in order and return the first entry whose provider flag is set; otherwise
try opencodeZen, then copilot, then zai, then the ultimate fallback. -/
def resolveModel (capability : ModelCapability) (avail : ProviderAvailability) : String :=
  match (NATIVE_FALLBACK_CHAINS capability).find? (fun e => avail.nativeFlag e.provider) with
  | some entry => entry.model
  | none =>
      if avail.opencodeZen then OPENCODE_ZEN_MODELS capability
      else if avail.copilot then GITHUB_COPILOT_MODELS capability
      else if avail.zai then ZAI_MODEL
      else ULTIMATE_FALLBACK

/-- `resolveClaudeCapability` from src/utils.ts. -/
def resolveClaudeCapability (avail : ProviderAvailability) : ModelCapability :=
  if avail.isMaxPlan then .unspecifiedHigh else .unspecifiedLow

/-- The per-agent/per-category `{model, variant?}` record
(`interface AgentConfig` / `CategoryConfig` in src/utils.ts). -/
structure MAgentConfig where
  model : String
  variant : Option String := none
deriving DecidableEq, Repr

/-- `hasAnyProvider` as computed in `generateModelConfig`. -/
def hasAnyProvider (avail : ProviderAvailability) : Bool :=
  avail.claude || avail.openai || avail.gemini ||
    avail.opencodeZen || avail.copilot || avail.zai

/-- One iteration of the agent loop of `generateModelConfig`: the librarian
and explore special cases, then the generic capability resolution with the
`unspecified-high → resolveClaudeCapability` substitution. -/
def agentEntry (avail : ProviderAvailability) (claudeCapability : ModelCapability)
    (role : String) (req : AgentRequirement) : MAgentConfig :=
  if role = "librarian" && avail.zai then
    { model := ZAI_MODEL }
  else if role = "explore" then
    if avail.claude && avail.isMaxPlan then
      { model := "anthropic/claude-haiku-4-5" }
    else
      { model := "opencode/grok-code" }
  else
    let capability := if req.capability = .unspecifiedHigh then claudeCapability else req.capability
    { model := resolveModel capability avail, variant := req.variant }

/-- One iteration of the category loop of `generateModelConfig`. -/
def categoryEntry (avail : ProviderAvailability) (claudeCapability : ModelCapability)
    (req : AgentRequirement) : MAgentConfig :=
  let capability := if req.capability = .unspecifiedHigh then claudeCapability else req.capability
  { model := resolveModel capability avail, variant := req.variant }

/-- The `agents` map produced by `generateModelConfig`, including the
no-provider early return in which every role gets the ultimate fallback
(and no variant). -/
def generatedAgents (config : InstallConfig) : List (String × MAgentConfig) :=
  let avail := toProviderAvailability config
  if hasAnyProvider avail then
    let claudeCapability := resolveClaudeCapability avail
    AGENT_REQUIREMENTS.map (fun p => (p.1, agentEntry avail claudeCapability p.1 p.2))
  else
    AGENT_REQUIREMENTS.map (fun p => (p.1, { model := ULTIMATE_FALLBACK }))

/-- The `categories` map produced by `generateModelConfig`. -/
def generatedCategories (config : InstallConfig) : List (String × MAgentConfig) :=
  let avail := toProviderAvailability config
  if hasAnyProvider avail then
    let claudeCapability := resolveClaudeCapability avail
    CATEGORY_REQUIREMENTS.map (fun p => (p.1, categoryEntry avail claudeCapability p.2))
  else
    CATEGORY_REQUIREMENTS.map (fun p => (p.1, { model := ULTIMATE_FALLBACK }))

/-- First-match lookup in an association list (the JS property read). -/
def alookup {α : Type} (l : List (String × α)) (k : String) : Option α :=
  (l.find? (fun p => p.1 = k)).map Prod.snd

/-- JavaScript/JSON values as handled by the config code: `null`, booleans,
numbers, strings, arrays and objects (objects as association lists in key
insertion order, the order `Object.keys` iterates). -/
inductive JVal where
  | null
  | boolean (b : Bool)
  | number (n : Int)
  | str (s : String)
  | arr (items : List JVal)
  | obj (fields : List (String × JVal))

/-- The `typeof v === "object" && v !== null && !Array.isArray(v)` test of
src/config-manager.ts: only the object constructor passes. -/
def JVal.isObj : JVal → Bool
  | .obj _ => true
  | _ => false

/-- `isObj` on a possibly-absent property value (absent = `undefined`,
which fails the object test). -/
def jOptIsObj : Option JVal → Bool
  | some v => v.isObj
  | none => false

/-- JS property assignment `result[key] = v`: overwriting an existing key
keeps its position, a new key is appended at the end. -/
def setField (o : List (String × JVal)) (k : String) (v : JVal) : List (String × JVal) :=
  if o.any (fun p => p.1 = k) then
    o.map (fun p => if p.1 = k then (k, v) else p)
  else
    o ++ [(k, v)]

mutual

/-- The per-key decision of `deepMerge` in src/config-manager.ts: when both
the current value (`targetValue`, may be absent) and the source value are
non-null non-array objects, the recursive merge; otherwise the source value
wholesale.  `JVal.obj` is exactly the non-null non-array object case of the
source's `typeof`/`Array.isArray` tests. -/
def mergeVal : Option JVal → JVal → JVal
  | some (JVal.obj tf), JVal.obj sf => JVal.obj (deepMerge tf sf)
  | _, sv => sv
termination_by _ sv => sizeOf sv

/-- `deepMerge` from src/config-manager.ts: starting from a copy of `target`,
assign every key of `source` in order, using `mergeVal` for the value.  Keys
not in `source` stay as in `target`; a pure function, so neither input is
mutated. -/
def deepMerge : List (String × JVal) → List (String × JVal) → List (String × JVal)
  | t, [] => t
  | t, (k, sv) :: rest => deepMerge (setField t k (mergeVal (alookup t k) sv)) rest
termination_by _ s => sizeOf s

end

/-- Serialization of an `AgentConfig` record to a JS object: `variant` is a
field only when present. -/
def agentConfigJ (a : MAgentConfig) : JVal :=
  JVal.obj (("model", JVal.str a.model) ::
    (match a.variant with
     | some v => [("variant", JVal.str v)]
     | none => []))

/-- The document `generateModelConfig` returns, as a JS object: in both the
no-provider early return and the general path its keys are exactly
`$schema`, `agents`, `categories`. -/
def generatedDoc (config : InstallConfig) : List (String × JVal) :=
  [("$schema", JVal.str SCHEMA_URL),
   ("agents", JVal.obj ((generatedAgents config).map (fun p => (p.1, agentConfigJ p.2)))),
   ("categories", JVal.obj ((generatedCategories config).map (fun p => (p.1, agentConfigJ p.2))))]

/-- The character class of the JS `\s` (and of `String.trim`'s whitespace),
restricted to its ASCII members (space, tab, newline, carriage return,
vertical tab, form feed); the configs at issue contain no exotic Unicode
whitespace. -/
def jsWhitespace (c : Char) : Bool :=
  c = ' ' || c = '\t' || c = '\n' || c = '\r' || c = Char.ofNat 11 || c = Char.ofNat 12

/-- `isEmptyOrWhitespace` from src/config-manager.ts:
`content.trim().length === 0`, i.e. every character of the content is
whitespace (a zero-byte file included). -/
def isEmptyOrWhitespace (content : String) : Bool :=
  content.toList.all jsWhitespace

/-- Outcome of `parseJsonc` on the raw file content: a value, or a thrown
`SyntaxError`. -/
inductive ParseOutcome where
  | ok (v : JVal)
  | syntaxError

/-- The settings-merge decision of `writeOmoConfig` from src/config-manager.ts,
as a pure function of the pre-existing file (`none` = absent, otherwise its
raw content paired with its parse outcome) returning the document written:
a zero-byte or whitespace-only file, a `SyntaxError`, a `null`/`undefined`
parse and a non-object parse all fall back to the freshly generated document;
only a parsed object is deep-merged with the generated one.  Every such path
ends in a successful write (failure arises only from filesystem faults,
outside this model). -/
def writeOmoCore (file : Option (String × ParseOutcome)) (config : InstallConfig) :
    List (String × JVal) :=
  let newConfig := generatedDoc config
  match file with
  | none => newConfig
  | some (content, outcome) =>
      if isEmptyOrWhitespace content then newConfig
      else
        match outcome with
        | .syntaxError => newConfig
        | .ok (JVal.obj existing) => deepMerge existing newConfig
        | .ok _ => newConfig

/-- `PACKAGE_NAME` from src/config-manager.ts. -/
def PACKAGE_NAME : String := "oh-my-opencode"

/-- The predicate of the `findIndex` in `addPluginToOpenCodeConfig`:
`p === PACKAGE_NAME || p.startsWith(PACKAGE_NAME + "@")` — the entry is the
bare package name, or the package name followed by an `@` suffix. -/
def isOmoPluginEntry (p : String) : Bool :=
  p = PACKAGE_NAME || (PACKAGE_NAME ++ "@").toList.isPrefixOf p.toList

/-- Result of the plugin-list edit: the new list and whether a write to disk
happens (the identical-entry case returns before any write). -/
structure EnsureResult where
  plugins : List String
  wrote : Bool
deriving DecidableEq, Repr

/-- JS `Array.prototype.findIndex`, with `none` for the sentinel `-1`. -/
def findIndex (p : String → Bool) : List String → Option Nat
  | [] => none
  | a :: l => if p a then some 0 else (findIndex p l).map (· + 1)

/-- The plugin-list core of `addPluginToOpenCodeConfig` from
src/config-manager.ts: find the first entry matching the package base name;
if it equals the new entry, no write; if it differs, replace it in place;
if there is none, append. -/
def ensurePluginList (plugins : List String) (pluginEntry : String) : EnsureResult :=
  match findIndex isOmoPluginEntry plugins with
  | some i =>
      if plugins.get? i = some pluginEntry then ⟨plugins, false⟩
      else ⟨plugins.set i pluginEntry, true⟩
  | none => ⟨plugins ++ [pluginEntry], true⟩

/-- Whether the regex `/"plugin"\s*:\s*\[([\s\S]*?)\]/` matches at the head
of `cs`: the literal `"plugin"`, optional whitespace, `:`, optional
whitespace, `[`, and a closing `]` somewhere later. -/
def pluginRegionAt (cs : List Char) : Bool :=
  let lit := "\"plugin\"".toList
  if cs.take lit.length = lit then
    match (cs.drop lit.length).dropWhile jsWhitespace with
    | ':' :: r2 =>
        match r2.dropWhile jsWhitespace with
        | '[' :: r3 => r3.contains ']'
        | _ => false
    | _ => false
  else false

/-- Whether the plugin-array regex matches anywhere in the raw jsonc file
content. -/
def hasPluginRegion (content : String) : Bool :=
  content.toList.tails.any pluginRegionAt

/-- The replacement text the fallback path splices in right after the opening
brace: `\n  "plugin": ["entry"],`. -/
def pluginInsertion (pluginEntry : String) : String :=
  "\n  \"plugin\": [\"" ++ pluginEntry ++ "\"],"

/-- The jsonc fallback edit `content.replace(/^(\s*\x7b)/, ...)` from
src/config-manager.ts: the anchored regex matches exactly when the first
non-whitespace character of the content is the opening brace, and the
replacement splices the plugin-list line right after that brace; otherwise
`replace` returns the content unchanged. -/
def insertAfterBrace (content : String) (pluginEntry : String) : String :=
  if (content.toList.dropWhile jsWhitespace).head? = some '\x7b' then
    String.mk (content.toList.takeWhile jsWhitespace ++
      '\x7b' :: ((pluginInsertion pluginEntry).toList ++
        (content.toList.dropWhile jsWhitespace).tail))
  else content

/-! ## Resolution engine: helper lemmas -/

/-- Every model string occurring in a native fallback chain is non-empty. -/
lemma chain_model_ne_empty (cap : ModelCapability) :
    ∀ e ∈ NATIVE_FALLBACK_CHAINS cap, e.model ≠ "" := by
  cases cap <;> decide

/-- The pooled and fallback model identifiers are non-empty. -/
lemma pooled_model_ne_empty (cap : ModelCapability) :
    OPENCODE_ZEN_MODELS cap ≠ "" ∧ GITHUB_COPILOT_MODELS cap ≠ "" ∧
    ZAI_MODEL ≠ "" ∧ ULTIMATE_FALLBACK ≠ "" := by
  cases cap <;> exact ⟨by decide, by decide, by decide, by decide⟩

/-- `find?` returns the element at index `i` when everything before `i`
fails the predicate and the element at `i` satisfies it. -/
lemma find?_eq_get_of_first {α : Type} (p : α → Bool) :
    ∀ (l : List α) (i : Nat) (hi : i < l.length),
      (∀ e ∈ l.take i, p e = false) → p (l.get ⟨i, hi⟩) = true →
      l.find? p = some (l.get ⟨i, hi⟩)
  | [], i, hi, _, _ => absurd hi (by simp)
  | a :: l, 0, _, _, hget => List.find?_cons_of_pos _ hget
  | a :: l, i + 1, hi, hpre, hget => by
      have ha : p a = false := hpre a (by simp)
      rw [List.find?_cons_of_neg _ (by simp [ha])]
      exact find?_eq_get_of_first p l i (by simpa using hi)
        (fun e he => hpre e (by simp [List.take_succ_cons]; exact Or.inr he)) hget

/-! ## C1 -/

/-- C1: for every capability tag and every assignment of the availability
flags, `resolveModel` returns a non-empty identifier (it is a total function,
so it never throws), and when no native chain entry names an available
provider and none of the three pooled flags is set it returns the single
ultimate fallback `opencode/glm-4.7-free`, the same for every capability. -/
theorem resolveModel_total_and_ultimate_fallback :
    (∀ (cap : ModelCapability) (avail : ProviderAvailability),
      resolveModel cap avail ≠ "") ∧
    (∀ (cap : ModelCapability) (avail : ProviderAvailability),
      (∀ e ∈ NATIVE_FALLBACK_CHAINS cap, avail.nativeFlag e.provider = false) →
      avail.opencodeZen = false → avail.copilot = false → avail.zai = false →
      resolveModel cap avail = ULTIMATE_FALLBACK) := by
  constructor
  · intro cap avail
    unfold resolveModel
    cases hfind : (NATIVE_FALLBACK_CHAINS cap).find? (fun e => avail.nativeFlag e.provider) with
    | some entry =>
        exact chain_model_ne_empty cap entry (List.mem_of_find?_eq_some hfind)
    | none =>
        obtain ⟨h1, h2, h3, h4⟩ := pooled_model_ne_empty cap
        split_ifs <;> assumption
  · intro cap avail hchain hz hc hzai
    unfold resolveModel
    have hnone : (NATIVE_FALLBACK_CHAINS cap).find? (fun e => avail.nativeFlag e.provider) = none := by
      rw [List.find?_eq_none]
      intro e he
      simp [hchain e he]
    rw [hnone, hz, hc, hzai]
    simp

/-- Witness for C1: with no provider flags set, the `quick` capability
resolves to the ultimate fallback. -/
theorem resolveModel_total_and_ultimate_fallback_witness :
    resolveModel .quick ⟨false, false, false, false, false, false, false⟩ = ULTIMATE_FALLBACK :=
  resolveModel_total_and_ultimate_fallback.2 .quick _ (by decide) rfl rfl rfl

/-! ## C2 -/

/-- The resolution algorithm exactly as the claim words it (for the
refinement comparison): walk the native chain; if none matches, one
non-native pooled-access flag returns that capability's pool-provider model;
otherwise one secondary pooled-access flag of a distinct provider returns its
fixed (capability-independent) model identifier; otherwise the ultimate
fallback.  The pool flag with per-capability models is opencodeZen and the
only pooled provider with a fixed identifier is zai — the claim's algorithm
has no step for the copilot flag. -/
def resolveModelClaimed (capability : ModelCapability) (avail : ProviderAvailability) : String :=
  match (NATIVE_FALLBACK_CHAINS capability).find? (fun e => avail.nativeFlag e.provider) with
  | some entry => entry.model
  | none =>
      if avail.opencodeZen then OPENCODE_ZEN_MODELS capability
      else if avail.zai then ZAI_MODEL
      else ULTIMATE_FALLBACK

/-- Availability with only the copilot flag set. -/
def copilotOnly : ProviderAvailability :=
  ⟨false, false, false, false, true, false, false⟩

/-- C2 counterexample: with only the copilot flag set the code returns a
copilot model where the claimed two-pooled-flag algorithm already falls back
to the ultimate fallback; moreover the copilot step is capability-dependent,
so no reading of the claim's "secondary flag with a fixed identifier" covers
it. -/
theorem resolveModel_claimed_order_counterexample :
    resolveModel .unspecifiedHigh copilotOnly = "github-copilot/claude-opus-4.5" ∧
    resolveModelClaimed .unspecifiedHigh copilotOnly = ULTIMATE_FALLBACK ∧
    resolveModel .writing copilotOnly ≠ resolveModel .ultrabrain copilotOnly := by
  exact ⟨rfl, rfl, by decide⟩

/-- C2 amended: the priority order has three pooled steps, not two — first
match of the native chain, else opencodeZen (capability-specific pool model),
else copilot (capability-specific copilot model), else zai (fixed
identifier), else the ultimate fallback. -/
theorem resolveModel_priority_order :
    ∀ (cap : ModelCapability) (avail : ProviderAvailability),
      (∀ (i : Nat) (hi : i < (NATIVE_FALLBACK_CHAINS cap).length),
        (∀ e ∈ (NATIVE_FALLBACK_CHAINS cap).take i, avail.nativeFlag e.provider = false) →
        avail.nativeFlag ((NATIVE_FALLBACK_CHAINS cap).get ⟨i, hi⟩).provider = true →
        resolveModel cap avail = ((NATIVE_FALLBACK_CHAINS cap).get ⟨i, hi⟩).model) ∧
      ((∀ e ∈ NATIVE_FALLBACK_CHAINS cap, avail.nativeFlag e.provider = false) →
        (avail.opencodeZen = true → resolveModel cap avail = OPENCODE_ZEN_MODELS cap) ∧
        (avail.opencodeZen = false → avail.copilot = true →
          resolveModel cap avail = GITHUB_COPILOT_MODELS cap) ∧
        (avail.opencodeZen = false → avail.copilot = false → avail.zai = true →
          resolveModel cap avail = ZAI_MODEL) ∧
        (avail.opencodeZen = false → avail.copilot = false → avail.zai = false →
          resolveModel cap avail = ULTIMATE_FALLBACK)) := by
  intro cap avail
  have hwalk : ∀ (i : Nat) (hi : i < (NATIVE_FALLBACK_CHAINS cap).length),
      (∀ e ∈ (NATIVE_FALLBACK_CHAINS cap).take i, avail.nativeFlag e.provider = false) →
      avail.nativeFlag ((NATIVE_FALLBACK_CHAINS cap).get ⟨i, hi⟩).provider = true →
      resolveModel cap avail = ((NATIVE_FALLBACK_CHAINS cap).get ⟨i, hi⟩).model := by
    intro i hi hpre hget
    unfold resolveModel
    rw [find?_eq_get_of_first _ _ i hi (fun e he => by simp [hpre e he]) hget]
  refine ⟨hwalk, ?_⟩
  intro hchain
  have hnone : (NATIVE_FALLBACK_CHAINS cap).find? (fun e => avail.nativeFlag e.provider) = none := by
    rw [List.find?_eq_none]
    intro e he
    simp [hchain e he]
  unfold resolveModel
  rw [hnone]
  refine ⟨?_, ?_, ?_, ?_⟩ <;> intros <;> simp_all

/-- Witness for the amended C2: the chain walk picks the second ultrabrain
entry when openai is unavailable, and with every native flag off the copilot
step precedes zai. -/
theorem resolveModel_priority_order_witness :
    resolveModel .ultrabrain ⟨true, false, false, true, true, true, true⟩ =
      "anthropic/claude-opus-4-5" ∧
    resolveModel .artistry ⟨false, false, false, false, true, true, false⟩ =
      GITHUB_COPILOT_MODELS .artistry := by
  constructor
  · exact (resolveModel_priority_order .ultrabrain _).1 1 (by decide) (by decide) (by decide)
  · exact ((resolveModel_priority_order .artistry _).2 (by decide)).2.1 rfl rfl

/-! ## C3 -/

/-- A max-tier Claude-only install. -/
def cfgClaudeMax : InstallConfig :=
  ⟨true, true, false, false, false, false, false⟩

/-- C3 counterexample: with Claude available and `isMax20 = true`, the
category requiring `unspecified-low` resolves to the sonnet model while the
one requiring `unspecified-high` resolves to the opus model — they are not
the same, so no low-to-high upgrade happens. -/
theorem tier_upgrade_counterexample :
    alookup (generatedCategories cfgClaudeMax) "unspecified-low" =
      some { model := "anthropic/claude-sonnet-4-5" } ∧
    alookup (generatedCategories cfgClaudeMax) "unspecified-high" =
      some { model := "anthropic/claude-opus-4-5" } ∧
    ("anthropic/claude-sonnet-4-5" : String) ≠ "anthropic/claude-opus-4-5" := by
  exact ⟨rfl, rfl, by decide⟩

/-- C3 amended: the tier coupling of `resolveClaudeCapability` works in the
opposite direction — when the declared tier is the lower one
(`isMax20 = false`), every role or category requiring `unspecified-high` is
downgraded to the `unspecified-low` capability before the chain walk, so it
resolves to the same `{model, variant}` as the `unspecified-low` category;
under `isMax20 = true` the two capabilities resolve independently. -/
theorem unspecified_high_downgraded_when_not_max (cfg : InstallConfig)
    (h : cfg.isMax20 = false) :
    alookup (generatedCategories cfg) "unspecified-high" =
      alookup (generatedCategories cfg) "unspecified-low" ∧
    alookup (generatedAgents cfg) "Sisyphus" =
      alookup (generatedCategories cfg) "unspecified-low" := by
  obtain ⟨hc, hm, ho, hg, hcp, hz, hza⟩ := cfg
  subst h
  by_cases hp : hasAnyProvider (toProviderAvailability ⟨hc, false, ho, hg, hcp, hz, hza⟩) <;>
    constructor <;>
    simp only [generatedAgents, generatedCategories, hp, if_pos, if_neg, if_true, if_false,
      Bool.false_eq_true, ite_true, ite_false] <;>
    rfl

/-- Witness for the amended C3: a standard-tier Claude-only install gives the
sonnet model to both the high and the low category. -/
theorem unspecified_high_downgraded_when_not_max_witness :
    alookup (generatedCategories ⟨true, false, false, false, false, false, false⟩)
        "unspecified-high" =
      alookup (generatedCategories ⟨true, false, false, false, false, false, false⟩)
        "unspecified-low" :=
  (unspecified_high_downgraded_when_not_max _ rfl).1

/-! ## C4 -/

/-- C4: with every provider flag false (for either subscription-tier value),
`generateModelConfig` assigns every known agent role and every known category
the single ultimate fallback identifier. -/
theorem no_provider_everything_ultimate : ∀ m : Bool,
    generatedAgents ⟨false, m, false, false, false, false, false⟩ =
      [("Sisyphus", { model := ULTIMATE_FALLBACK }),
       ("oracle", { model := ULTIMATE_FALLBACK }),
       ("librarian", { model := ULTIMATE_FALLBACK }),
       ("explore", { model := ULTIMATE_FALLBACK }),
       ("multimodal-looker", { model := ULTIMATE_FALLBACK }),
       ("Prometheus (Planner)", { model := ULTIMATE_FALLBACK }),
       ("Metis (Plan Consultant)", { model := ULTIMATE_FALLBACK }),
       ("Momus (Plan Reviewer)", { model := ULTIMATE_FALLBACK }),
       ("Atlas", { model := ULTIMATE_FALLBACK })] ∧
    generatedCategories ⟨false, m, false, false, false, false, false⟩ =
      [("visual-engineering", { model := ULTIMATE_FALLBACK }),
       ("ultrabrain", { model := ULTIMATE_FALLBACK }),
       ("artistry", { model := ULTIMATE_FALLBACK }),
       ("quick", { model := ULTIMATE_FALLBACK }),
       ("unspecified-low", { model := ULTIMATE_FALLBACK }),
       ("unspecified-high", { model := ULTIMATE_FALLBACK }),
       ("writing", { model := ULTIMATE_FALLBACK })] := by
  intro m
  exact ⟨rfl, rfl⟩

/-! ## C10 -/

/-- Whether a model identifier belongs to one of the three native providers
(their identifiers all carry the provider prefix in the chains above). -/
def isNativeModelId (s : String) : Bool :=
  "anthropic/".toList.isPrefixOf s.toList ||
  "openai/".toList.isPrefixOf s.toList ||
  "google/".toList.isPrefixOf s.toList

/-- C10: the `glm` capability has an empty native chain, so `resolveModel`
on it never yields a native (anthropic/openai/google) model whatever the
availability; and with the zai, opencodeZen and copilot flags all false the
librarian role is assigned the ultimate fallback even when native providers
are available. -/
theorem glm_capability_never_native :
    NATIVE_FALLBACK_CHAINS .glm = [] ∧
    (∀ avail : ProviderAvailability,
      isNativeModelId (resolveModel .glm avail) = false) ∧
    (∀ c o g m : Bool,
      alookup (generatedAgents ⟨c, m, o, g, false, false, false⟩) "librarian" =
        some { model := ULTIMATE_FALLBACK }) := by
  refine ⟨rfl, ?_, ?_⟩
  · intro avail
    obtain ⟨c, o, g, z, cp, za, m⟩ := avail
    cases c <;> cases o <;> cases g <;> cases z <;> cases cp <;> cases za <;> cases m <;> decide
  · intro c o g m
    cases c <;> cases o <;> cases g <;> cases m <;> decide

/-! ## Deep merge unit: association-list lemmas -/

lemma alookup_cons {α : Type} (a : String × α) (o : List (String × α)) (k : String) :
    alookup (a :: o) k = if a.1 = k then some a.2 else alookup o k := by
  by_cases h : a.1 = k
  · rw [if_pos h]
    unfold alookup
    rw [List.find?_cons_of_pos _ (by simp [h])]
    rfl
  · rw [if_neg h]
    unfold alookup
    rw [List.find?_cons_of_neg _ (by simp [h])]

lemma alookup_eq_none {α : Type} (l : List (String × α)) (k : String) :
    alookup l k = none ↔ k ∉ l.map Prod.fst := by
  induction l with
  | nil => simp [alookup]
  | cons a l ih =>
      rw [alookup_cons, List.map_cons, List.mem_cons]
      by_cases h : a.1 = k
      · simp [h]
      · rw [if_neg h, ih]
        constructor
        · intro hn hor
          rcases hor with h1 | h2
          · exact h h1.symm
          · exact hn h2
        · intro hnn hm
          exact hnn (Or.inr hm)

lemma alookup_map_replace (o : List (String × JVal)) (k : String) (v : JVal)
    (k' : String) (h : k ≠ k') :
    alookup (o.map (fun p => if p.1 = k then (k, v) else p)) k' = alookup o k' := by
  induction o with
  | nil => rfl
  | cons a o ih =>
      by_cases ha : a.1 = k
      · rw [List.map_cons, if_pos ha, alookup_cons, alookup_cons, if_neg h,
          if_neg (show a.1 ≠ k' from ha ▸ h)]
        exact ih
      · rw [List.map_cons, if_neg ha, alookup_cons, alookup_cons]
        by_cases hk' : a.1 = k'
        · rw [if_pos hk', if_pos hk']
        · rw [if_neg hk', if_neg hk']
          exact ih

lemma alookup_append_single {α : Type} (o : List (String × α)) (k : String) (v : α)
    (k' : String) (h : k ≠ k') :
    alookup (o ++ [(k, v)]) k' = alookup o k' := by
  induction o with
  | nil => simp [alookup_cons, h, alookup]
  | cons a o ih =>
      rw [List.cons_append, alookup_cons, alookup_cons]
      by_cases ha : a.1 = k'
      · rw [if_pos ha, if_pos ha]
      · rw [if_neg ha, if_neg ha]
        exact ih

lemma alookup_setField_self (o : List (String × JVal)) (k : String) (v : JVal) :
    alookup (setField o k v) k = some v := by
  induction o with
  | nil => simp [setField, alookup_cons]
  | cons a o ih =>
      by_cases h : a.1 = k
      · unfold setField
        rw [if_pos (by simp [h])]
        rw [List.map_cons, if_pos h, alookup_cons, if_pos rfl]
      · have hc : setField (a :: o) k v = a :: setField o k v := by
          unfold setField
          by_cases ho : o.any (fun p => p.1 = k)
          · rw [if_pos ho, if_pos (by simp [h, ho]), List.map_cons, if_neg h]
          · rw [if_neg ho, if_neg (by simp [h, ho]), List.cons_append]
        rw [hc, alookup_cons, if_neg h]
        exact ih

lemma alookup_setField_of_ne (o : List (String × JVal)) (k : String) (v : JVal)
    (k' : String) (h : k ≠ k') :
    alookup (setField o k v) k' = alookup o k' := by
  unfold setField
  by_cases ho : o.any (fun p => p.1 = k)
  · rw [if_pos ho]
    exact alookup_map_replace o k v k' h
  · rw [if_neg ho]
    exact alookup_append_single o k v k' h

lemma mergeVal_not_both_obj (o : Option JVal) (sv : JVal)
    (h : (sv.isObj && jOptIsObj o) = false) : mergeVal o sv = sv := by
  cases o with
  | none =>
      rw [mergeVal]
      intro tf sf heq
      cases heq
  | some tv =>
      cases tv with
      | obj tf0 =>
          cases sv with
          | obj sf0 => simp [JVal.isObj, jOptIsObj] at h
          | null => rw [mergeVal]; intro tf sf _ hsv; cases hsv
          | boolean b => rw [mergeVal]; intro tf sf _ hsv; cases hsv
          | number n => rw [mergeVal]; intro tf sf _ hsv; cases hsv
          | str s => rw [mergeVal]; intro tf sf _ hsv; cases hsv
          | arr l => rw [mergeVal]; intro tf sf _ hsv; cases hsv
      | null => rw [mergeVal]; intro tf sf heq; cases heq
      | boolean b => rw [mergeVal]; intro tf sf heq; cases heq
      | number n => rw [mergeVal]; intro tf sf heq; cases heq
      | str s => rw [mergeVal]; intro tf sf heq; cases heq
      | arr l => rw [mergeVal]; intro tf sf heq; cases heq

/-- The full lookup characterization of `deepMerge`: on a source whose keys
are distinct (JS objects always are), the merged object maps `k` to the
`mergeVal` of the two sides when `k` is in the source and to the target's
value otherwise. -/
lemma deepMerge_alookup (k : String) :
    ∀ (s : List (String × JVal)), (s.map Prod.fst).Nodup →
    ∀ (t : List (String × JVal)),
      alookup (deepMerge t s) k =
        match alookup s k with
        | some sv => some (mergeVal (alookup t k) sv)
        | none => alookup t k
  | [], _, t => by rw [deepMerge]; rfl
  | (k', sv') :: rest, hn, t => by
      have hrest : (rest.map Prod.fst).Nodup := (List.nodup_cons.mp (by simpa using hn)).2
      have hkmem : k' ∉ rest.map Prod.fst := (List.nodup_cons.mp (by simpa using hn)).1
      rw [deepMerge, deepMerge_alookup k rest hrest]
      by_cases hk : k' = k
      · subst hk
        have hnone : alookup rest k' = none := (alookup_eq_none rest k').mpr hkmem
        rw [hnone, alookup_cons, if_pos rfl, alookup_setField_self]
      · rw [alookup_setField_of_ne t k' _ k hk, alookup_cons, if_neg hk]

/-! ## C5 -/

/-- C5: for all objects `target` and `source` (source keys distinct, as JS
object keys always are) and every key: if both sides hold non-null non-array
objects at the key, the result holds their recursive merge; otherwise a key
present in the source replaces the target value wholesale (arrays included —
a source array is never concatenated with a target array); keys present only
in the target are unchanged.  `deepMerge` is a pure function of its
arguments, so neither input is mutated. -/
theorem deepMerge_per_key (target source : List (String × JVal))
    (hs : (source.map Prod.fst).Nodup) (k : String) :
    (∀ tf sf, alookup target k = some (JVal.obj tf) →
      alookup source k = some (JVal.obj sf) →
      alookup (deepMerge target source) k = some (JVal.obj (deepMerge tf sf))) ∧
    (∀ sv, alookup source k = some sv →
      (sv.isObj && jOptIsObj (alookup target k)) = false →
      alookup (deepMerge target source) k = some sv) ∧
    (alookup source k = none →
      alookup (deepMerge target source) k = alookup target k) := by
  refine ⟨?_, ?_, ?_⟩
  · intro tf sf ht hsk
    rw [deepMerge_alookup k source hs target, hsk]
    show some (mergeVal (alookup target k) (JVal.obj sf)) = _
    rw [ht, mergeVal]
  · intro sv hsk hno
    rw [deepMerge_alookup k source hs target, hsk]
    show some (mergeVal (alookup target k) sv) = some sv
    rw [mergeVal_not_both_obj _ _ hno]
  · intro hsk
    rw [deepMerge_alookup k source hs target, hsk]

/-- A target object with an array, a scalar and a nested object. -/
def mergeTgt : List (String × JVal) :=
  [("a", JVal.arr [JVal.number 1, JVal.number 2]),
   ("keep", JVal.str "x"),
   ("o", JVal.obj [("p", JVal.number 1)])]

/-- A source object replacing the array and merging into the nested object. -/
def mergeSrc : List (String × JVal) :=
  [("a", JVal.arr [JVal.number 9]),
   ("o", JVal.obj [("q", JVal.number 2)])]

/-- Witness for C5: a source array replaces the target array wholesale, the
nested objects are merged recursively, and a target-only key is preserved. -/
theorem deepMerge_per_key_witness :
    alookup (deepMerge mergeTgt mergeSrc) "a" = some (JVal.arr [JVal.number 9]) ∧
    alookup (deepMerge mergeTgt mergeSrc) "o" =
      some (JVal.obj (deepMerge [("p", JVal.number 1)] [("q", JVal.number 2)])) ∧
    alookup (deepMerge mergeTgt mergeSrc) "keep" = some (JVal.str "x") := by
  refine ⟨?_, ?_, ?_⟩
  · exact (deepMerge_per_key mergeTgt mergeSrc (by decide) "a").2.1 _ rfl rfl
  · exact (deepMerge_per_key mergeTgt mergeSrc (by decide) "o").1 _ _ rfl rfl
  · have h := (deepMerge_per_key mergeTgt mergeSrc (by decide) "keep").2.2 rfl
    rw [h]
    rfl

/-! ## C6 -/

/-- C6: when the existing settings file parses to an object, the settings
merge of `writeOmoConfig` leaves every top-level key the generator does not
produce (anything other than `$schema`, `agents`, `categories`) with its
existing value unchanged. -/
theorem writeOmo_preserves_foreign_keys
    (content : String) (hc : isEmptyOrWhitespace content = false)
    (ex : List (String × JVal)) (cfg : InstallConfig) (k : String)
    (h1 : k ≠ "$schema") (h2 : k ≠ "agents") (h3 : k ≠ "categories") :
    alookup (writeOmoCore (some (content, ParseOutcome.ok (JVal.obj ex))) cfg) k =
      alookup ex k := by
  have hred : writeOmoCore (some (content, ParseOutcome.ok (JVal.obj ex))) cfg =
      if isEmptyOrWhitespace content then generatedDoc cfg
      else deepMerge ex (generatedDoc cfg) := rfl
  have hkeys : (generatedDoc cfg).map Prod.fst = ["$schema", "agents", "categories"] := rfl
  have hnodup : ((generatedDoc cfg).map Prod.fst).Nodup := by
    rw [hkeys]
    decide
  rw [hred, hc, if_neg (by simp)]
  rw [deepMerge_alookup k (generatedDoc cfg) hnodup ex]
  have hnone : alookup (generatedDoc cfg) k = none := by
    rw [alookup_eq_none, hkeys]
    simp [h1, h2, h3]
  rw [hnone]

/-- Witness for C6: an existing `custom` key with a nested object value is
still present, unchanged, after the generator merge. -/
theorem writeOmo_preserves_foreign_keys_witness :
    alookup (writeOmoCore (some ("x", ParseOutcome.ok
        (JVal.obj [("custom", JVal.obj [("x", JVal.number 1)])])))
        ⟨false, false, false, false, false, false, false⟩) "custom" =
      some (JVal.obj [("x", JVal.number 1)]) := by
  have h := writeOmo_preserves_foreign_keys "x" rfl
    [("custom", JVal.obj [("x", JVal.number 1)])]
    ⟨false, false, false, false, false, false, false⟩
    "custom" (by decide) (by decide) (by decide)
  rw [h]
  rfl

/-! ## C8 -/

/-- C8: a pre-existing settings file that is zero-byte or whitespace-only,
that fails to parse, or that parses to a non-object value does not make
`writeOmoConfig` fail: the merge proceeds exactly as if the file were
absent, and the freshly generated document is written (a successful
result; failures can only come from filesystem faults, which are outside
the pure model). -/
theorem writeOmo_tolerates_bad_file (cfg : InstallConfig) :
    (∀ (content : String) (outcome : ParseOutcome), isEmptyOrWhitespace content = true →
      writeOmoCore (some (content, outcome)) cfg = writeOmoCore none cfg) ∧
    (∀ content : String, writeOmoCore (some (content, ParseOutcome.syntaxError)) cfg =
      writeOmoCore none cfg) ∧
    (∀ (content : String) (v : JVal), v.isObj = false →
      writeOmoCore (some (content, ParseOutcome.ok v)) cfg = writeOmoCore none cfg) ∧
    writeOmoCore none cfg = generatedDoc cfg := by
  refine ⟨?_, ?_, ?_, rfl⟩
  · intro content outcome h
    cases outcome with
    | syntaxError =>
        show (if isEmptyOrWhitespace content then generatedDoc cfg else generatedDoc cfg) =
          generatedDoc cfg
        rw [h, if_pos rfl]
    | ok v =>
        cases v with
        | obj ex =>
            show (if isEmptyOrWhitespace content then generatedDoc cfg
              else deepMerge ex (generatedDoc cfg)) = generatedDoc cfg
            rw [h, if_pos rfl]
        | null => show (if isEmptyOrWhitespace content then generatedDoc cfg
            else generatedDoc cfg) = generatedDoc cfg; split <;> rfl
        | boolean b => show (if isEmptyOrWhitespace content then generatedDoc cfg
            else generatedDoc cfg) = generatedDoc cfg; split <;> rfl
        | number n => show (if isEmptyOrWhitespace content then generatedDoc cfg
            else generatedDoc cfg) = generatedDoc cfg; split <;> rfl
        | str s => show (if isEmptyOrWhitespace content then generatedDoc cfg
            else generatedDoc cfg) = generatedDoc cfg; split <;> rfl
        | arr l => show (if isEmptyOrWhitespace content then generatedDoc cfg
            else generatedDoc cfg) = generatedDoc cfg; split <;> rfl
  · intro content
    show (if isEmptyOrWhitespace content then generatedDoc cfg else generatedDoc cfg) =
      generatedDoc cfg
    split <;> rfl
  · intro content v hv
    cases v with
    | obj ex => simp [JVal.isObj] at hv
    | null => show (if isEmptyOrWhitespace content then generatedDoc cfg
        else generatedDoc cfg) = generatedDoc cfg; split <;> rfl
    | boolean b => show (if isEmptyOrWhitespace content then generatedDoc cfg
        else generatedDoc cfg) = generatedDoc cfg; split <;> rfl
    | number n => show (if isEmptyOrWhitespace content then generatedDoc cfg
        else generatedDoc cfg) = generatedDoc cfg; split <;> rfl
    | str s => show (if isEmptyOrWhitespace content then generatedDoc cfg
        else generatedDoc cfg) = generatedDoc cfg; split <;> rfl
    | arr l => show (if isEmptyOrWhitespace content then generatedDoc cfg
        else generatedDoc cfg) = generatedDoc cfg; split <;> rfl

/-- Witness for C8: a whitespace-only file and an array-valued file both
produce exactly the fresh document an absent file would. -/
theorem writeOmo_tolerates_bad_file_witness :
    writeOmoCore (some ("   \n", ParseOutcome.syntaxError))
        ⟨false, false, false, false, false, false, false⟩ =
      writeOmoCore none ⟨false, false, false, false, false, false, false⟩ ∧
    writeOmoCore (some ("[1, 2]", ParseOutcome.ok (JVal.arr [JVal.number 1, JVal.number 2])))
        ⟨false, false, false, false, false, false, false⟩ =
      writeOmoCore none ⟨false, false, false, false, false, false, false⟩ := by
  constructor
  · exact (writeOmo_tolerates_bad_file _).1 "   \n" ParseOutcome.syntaxError (by decide)
  · exact (writeOmo_tolerates_bad_file _).2.2.1 "[1, 2]"
      (JVal.arr [JVal.number 1, JVal.number 2]) rfl

/-! ## Plugin registry editor: findIndex lemmas -/

lemma findIndex_eq_none (p : String → Bool) (l : List String) :
    findIndex p l = none ↔ ∀ x ∈ l, p x = false := by
  induction l with
  | nil => simp [findIndex]
  | cons a l ih =>
      unfold findIndex
      by_cases h : p a
      · simp [h]
      · simp [h, Option.map_eq_none', ih]

lemma findIndex_bounds (p : String → Bool) :
    ∀ (l : List String) (i : Nat), findIndex p l = some i →
      i < l.length ∧ ∃ x, l.get? i = some x ∧ p x = true
  | [], i, h => by simp [findIndex] at h
  | a :: l, i, h => by
      unfold findIndex at h
      by_cases ha : p a
      · rw [if_pos ha] at h
        cases h
        exact ⟨by simp, a, rfl, ha⟩
      · rw [if_neg ha] at h
        cases hfl : findIndex p l with
        | none => rw [hfl] at h; cases h
        | some j =>
            rw [hfl] at h
            injection h with h'
            subst h'
            obtain ⟨hj, x, hx, hpx⟩ := findIndex_bounds p l j hfl
            exact ⟨by simpa using Nat.succ_lt_succ hj, x, hx, hpx⟩

lemma findIndex_append_singleton (p : String → Bool) (a : String) :
    ∀ (l : List String), findIndex p l = none →
      findIndex p (l ++ [a]) = if p a then some l.length else none
  | [], _ => by
      by_cases hp : p a <;> simp [findIndex, hp]
  | b :: l, h => by
      unfold findIndex at h
      by_cases hb : p b
      · rw [if_pos hb] at h
        cases h
      · rw [if_neg hb] at h
        have hl : findIndex p l = none := by
          cases hfl : findIndex p l with
          | none => rfl
          | some j => rw [hfl] at h; cases h
        rw [List.cons_append]
        unfold findIndex
        rw [if_neg hb, findIndex_append_singleton p a l hl]
        by_cases hp : p a <;> simp [hp]

lemma findIndex_set_of_first (p : String → Bool) (a : String) (ha : p a = true) :
    ∀ (l : List String) (i : Nat), findIndex p l = some i →
      findIndex p (l.set i a) = some i
  | [], i, h => by simp [findIndex] at h
  | b :: l, i, h => by
      unfold findIndex at h
      by_cases hb : p b
      · rw [if_pos hb] at h
        cases h
        show findIndex p (a :: l) = some 0
        simp [findIndex, ha]
      · rw [if_neg hb] at h
        cases hfl : findIndex p l with
        | none => rw [hfl] at h; cases h
        | some j =>
            rw [hfl] at h
            injection h with h'
            subst h'
            show findIndex p (b :: l.set j a) = some (j + 1)
            unfold findIndex
            rw [if_neg hb, findIndex_set_of_first p a ha l j hfl]
            rfl

lemma get?_set_self (l : List String) (i : Nat) (a : String) (h : i < l.length) :
    (l.set i a).get? i = some a := by
  induction l generalizing i with
  | nil => simp at h
  | cons b l ih =>
      cases i with
      | zero => rfl
      | succ i => exact ih i (Nat.lt_of_succ_lt_succ h)

/-- Under the one-matching-entry invariant, the first matching index holds
exactly the entry that is known to be a member. -/
lemma first_match_unique (p : String → Bool) (entry : String) (hp : p entry = true) :
    ∀ l : List String, l.countP p ≤ 1 → entry ∈ l →
      ∃ i, findIndex p l = some i ∧ l.get? i = some entry
  | [], _, hm => absurd hm (by simp)
  | a :: l, hc, hm => by
      by_cases hpa : p a
      · have hl0 : l.countP p = 0 := by
          rw [List.countP_cons, if_pos hpa] at hc
          omega
        have hae : a = entry := by
          rcases List.mem_cons.mp hm with h | h
          · exact h.symm
          · exact absurd hp (by simpa using List.countP_eq_zero.mp hl0 entry h)
        refine ⟨0, by simp [findIndex, hpa], by simp [hae]⟩
      · have hm' : entry ∈ l := by
          rcases List.mem_cons.mp hm with h | h
          · exact absurd (h ▸ hp) hpa
          · exact h
        have hc' : l.countP p ≤ 1 := by
          rw [List.countP_cons, if_neg hpa] at hc
          omega
        obtain ⟨i, hf, hg⟩ := first_match_unique p entry hp l hc' hm'
        refine ⟨i + 1, ?_, hg⟩
        unfold findIndex
        rw [if_neg hpa, hf]
        rfl

lemma countP_set_of_both (p : String → Bool) (l : List String) (i : Nat) (a : String)
    (hi : i < l.length) (hold : p (l.get ⟨i, hi⟩) = true) (ha : p a = true) :
    (l.set i a).countP p = l.countP p := by
  rw [List.set_eq_take_append_cons_drop, if_pos hi]
  conv_rhs => rw [← List.take_append_drop i l, List.drop_eq_get_cons hi]
  rw [List.countP_append, List.countP_append, List.countP_cons, List.countP_cons, hold, ha]

lemma ensurePluginList_of_none (plugins : List String) (entry : String)
    (hf : findIndex isOmoPluginEntry plugins = none) :
    ensurePluginList plugins entry = ⟨plugins ++ [entry], true⟩ := by
  unfold ensurePluginList
  rw [hf]

lemma ensurePluginList_of_hit (plugins : List String) (entry : String) (i : Nat)
    (hf : findIndex isOmoPluginEntry plugins = some i)
    (heq : plugins.get? i = some entry) :
    ensurePluginList plugins entry = ⟨plugins, false⟩ := by
  unfold ensurePluginList
  rw [hf]
  show (if plugins.get? i = some entry then (⟨plugins, false⟩ : EnsureResult)
    else ⟨plugins.set i entry, true⟩) = ⟨plugins, false⟩
  rw [if_pos heq]

lemma ensurePluginList_of_miss (plugins : List String) (entry : String) (i : Nat)
    (hf : findIndex isOmoPluginEntry plugins = some i)
    (heq : plugins.get? i ≠ some entry) :
    ensurePluginList plugins entry = ⟨plugins.set i entry, true⟩ := by
  unfold ensurePluginList
  rw [hf]
  show (if plugins.get? i = some entry then (⟨plugins, false⟩ : EnsureResult)
    else ⟨plugins.set i entry, true⟩) = ⟨plugins.set i entry, true⟩
  rw [if_neg heq]

/-! ## C7 -/

/-- C7: writing the plugin entry into the `plugin` list keeps the package's
base name at most once (starting from a list that respects that invariant it
ends with exactly one matching entry); when an identical entry is already
present (under the invariant) the operation performs no write and leaves the
list untouched; when the first base-name match differs it is replaced in
place, preserving the order of every other element; and a second run with
the same entry is always a no-write no-op, so the file is byte-identical
after the first call. -/
theorem ensurePlugin_spec (plugins : List String) (entry : String)
    (hb : isOmoPluginEntry entry = true) :
    (plugins.countP isOmoPluginEntry ≤ 1 →
      (ensurePluginList plugins entry).plugins.countP isOmoPluginEntry = 1) ∧
    (plugins.countP isOmoPluginEntry ≤ 1 → entry ∈ plugins →
      ensurePluginList plugins entry = ⟨plugins, false⟩) ∧
    (∀ i, findIndex isOmoPluginEntry plugins = some i → plugins.get? i ≠ some entry →
      ensurePluginList plugins entry =
        ⟨plugins.take i ++ entry :: plugins.drop (i + 1), true⟩) ∧
    ensurePluginList (ensurePluginList plugins entry).plugins entry =
      ⟨(ensurePluginList plugins entry).plugins, false⟩ := by
  refine ⟨?_, ?_, ?_, ?_⟩
  · intro hc
    cases hf : findIndex isOmoPluginEntry plugins with
    | none =>
        have h0 : plugins.countP isOmoPluginEntry = 0 :=
          List.countP_eq_zero.mpr (by simpa using (findIndex_eq_none _ plugins).mp hf)
        rw [ensurePluginList_of_none plugins entry hf]
        show (plugins ++ [entry]).countP isOmoPluginEntry = 1
        rw [List.countP_append, h0, List.countP_cons, hb]
        rfl
    | some i =>
        obtain ⟨hi, x, hx, hpx⟩ := findIndex_bounds _ plugins i hf
        obtain ⟨hlt, hget⟩ := List.get?_eq_some.mp hx
        have h1 : 1 ≤ plugins.countP isOmoPluginEntry :=
          List.countP_pos.mpr ⟨x, List.get?_mem hx, hpx⟩
        by_cases heq : plugins.get? i = some entry
        · rw [ensurePluginList_of_hit plugins entry i hf heq]
          show plugins.countP isOmoPluginEntry = 1
          omega
        · rw [ensurePluginList_of_miss plugins entry i hf heq]
          show (plugins.set i entry).countP isOmoPluginEntry = 1
          rw [countP_set_of_both _ plugins i entry hlt (by rw [hget]; exact hpx) hb]
          omega
  · intro hc hm
    obtain ⟨i, hf, hg⟩ := first_match_unique _ entry hb plugins hc hm
    exact ensurePluginList_of_hit plugins entry i hf hg
  · intro i hf hne
    rw [ensurePluginList_of_miss plugins entry i hf hne]
    have hi := (findIndex_bounds _ plugins i hf).1
    rw [List.set_eq_take_append_cons_drop, if_pos hi]
  · cases hf : findIndex isOmoPluginEntry plugins with
    | none =>
        rw [ensurePluginList_of_none plugins entry hf]
        exact ensurePluginList_of_hit _ entry plugins.length
          (by rw [findIndex_append_singleton _ entry plugins hf, if_pos hb])
          (List.get?_concat_length plugins entry)
    | some i =>
        by_cases heq : plugins.get? i = some entry
        · rw [ensurePluginList_of_hit plugins entry i hf heq]
          exact ensurePluginList_of_hit plugins entry i hf heq
        · rw [ensurePluginList_of_miss plugins entry i hf heq]
          have hi := (findIndex_bounds _ plugins i hf).1
          exact ensurePluginList_of_hit _ entry i
            (findIndex_set_of_first _ entry hb plugins i hf)
            (get?_set_self plugins i entry hi)

/-- Witness for C7: ensuring `oh-my-opencode@latest` over a list holding an
older pinned entry replaces it in place, and re-running is a no-write no-op;
on a list already holding the identical entry nothing is written. -/
theorem ensurePlugin_spec_witness :
    ensurePluginList ["other", "oh-my-opencode@2.0.0", "tail"] "oh-my-opencode@latest" =
      ⟨["other", "oh-my-opencode@latest", "tail"], true⟩ ∧
    ensurePluginList ["other", "oh-my-opencode@latest", "tail"] "oh-my-opencode@latest" =
      ⟨["other", "oh-my-opencode@latest", "tail"], false⟩ ∧
    (ensurePluginList ["other", "oh-my-opencode@2.0.0", "tail"]
        "oh-my-opencode@latest").plugins.countP isOmoPluginEntry = 1 := by
  refine ⟨?_, ?_, ?_⟩
  · exact (ensurePlugin_spec ["other", "oh-my-opencode@2.0.0", "tail"]
      "oh-my-opencode@latest" (by decide)).2.2.1 1 rfl (by decide)
  · exact (ensurePlugin_spec ["other", "oh-my-opencode@latest", "tail"]
      "oh-my-opencode@latest" (by decide)).2.1 (by decide) (by decide)
  · exact (ensurePlugin_spec ["other", "oh-my-opencode@2.0.0", "tail"]
      "oh-my-opencode@latest" (by decide)).1 (by decide)

/-! ## C9 -/

lemma takeWhile_ws_append (p : Char → Bool) :
    ∀ (ws : List Char), (∀ c ∈ ws, p c = true) → ∀ (a : Char), p a = false →
      ∀ (rest : List Char),
      (ws ++ a :: rest).takeWhile p = ws ∧ (ws ++ a :: rest).dropWhile p = a :: rest
  | [], _, a, ha, rest => by
      simp [List.takeWhile_cons, List.dropWhile_cons, ha]
  | c :: ws, h, a, ha, rest => by
      have hc : p c = true := h c (by simp)
      have ih := takeWhile_ws_append p ws (fun x hx => h x (by simp [hx])) a ha rest
      simp [List.takeWhile_cons, List.dropWhile_cons, hc, ih.1, ih.2]

/-- C9 counterexample: a jsonc document that begins with a line comment
before its opening brace has no locatable plugin region, yet the fallback
edit leaves the file completely unchanged — no plugin-list entry is inserted
after the document's opening brace (the written file still has no plugin
key at all). -/
theorem insertAfterBrace_counterexample :
    hasPluginRegion "// a\n\x7b\x7d" = false ∧
    insertAfterBrace "// a\n\x7b\x7d" "oh-my-opencode@latest" = "// a\n\x7b\x7d" ∧
    hasPluginRegion (insertAfterBrace "// a\n\x7b\x7d" "oh-my-opencode@latest") = false := by
  refine ⟨by decide, by decide, by decide⟩

/-- C9 amended: when the plugin region cannot be located and the raw content
starts with optional whitespace followed by the opening brace, the fallback
edit inserts the plugin-list line immediately after that brace, keeping the
leading whitespace and the whole remaining text unchanged; a document whose
opening brace is preceded by anything other than whitespace (e.g. a leading
comment) is left entirely unchanged by the anchored replace. -/
theorem insertAfterBrace_inserts (ws tail : List Char) (entry : String)
    (hws : ∀ c ∈ ws, jsWhitespace c = true)
    (_hregion : hasPluginRegion (String.mk (ws ++ '\x7b' :: tail)) = false) :
    insertAfterBrace (String.mk (ws ++ '\x7b' :: tail)) entry =
      String.mk (ws ++ '\x7b' :: ((pluginInsertion entry).toList ++ tail)) := by
  have h := takeWhile_ws_append jsWhitespace ws hws '\x7b' (by decide) tail
  have htl : (String.mk (ws ++ '\x7b' :: tail)).toList = ws ++ '\x7b' :: tail := rfl
  unfold insertAfterBrace
  rw [htl, h.1, h.2, if_pos (show (('\x7b' :: tail).head? = some '\x7b') from rfl)]
  rfl

/-- Witness for the amended C9: inserting into the bare document consisting
of an opening and closing brace produces the document with exactly the
plugin line spliced after the opening brace. -/
theorem insertAfterBrace_inserts_witness :
    insertAfterBrace "\x7b\n\x7d" "oh-my-opencode@latest" =
      "\x7b\n  \"plugin\": [\"oh-my-opencode@latest\"],\n\x7d" := by
  have h := insertAfterBrace_inserts [] ('\n' :: '\x7d' :: []) "oh-my-opencode@latest"
    (by intro c hc; cases hc) (by decide)
  exact h.trans (by decide)

end Hotspot
